import Mathlib

/-!
Verification of the SmoothZoom core logic.

This file gives a shallow embedding of the pure logic of the SmoothZoom
magnifier (ViewportTracker, ZoomController, LockFreeQueue, SettingsManager,
and the render loop's rectangle validation) and proves or refutes the
specification claims about it.

Modelling conventions:
* C++ `float`/`double` arithmetic is idealised as exact arithmetic: `ℚ` where
  the source only uses field operations, `ℝ` where it uses `log`/`pow`.
* C++ integers are `ℤ` (no overflow is reachable in the modelled paths).
* `std::clamp(v, lo, hi)` is translated literally as its reference
  implementation `if v < lo then lo else if hi < v then hi else v`.
* Stateful classes become structures with explicit state passing.
-/

namespace SmoothZoom

/-- Literal translation of `std::clamp`: `comp(v, lo) ? lo : comp(hi, v) ? hi : v`. -/
def cppClamp {α : Type} [LinearOrder α] (v lo hi : α) : α :=
  if v < lo then lo else if hi < v then hi else v

/-- `ScreenRect` from `include/smoothzoom/common/Types.h`. -/
structure ScreenRect where
  left : ℤ
  top : ℤ
  right : ℤ
  bottom : ℤ
deriving DecidableEq

namespace ScreenRect

/-- `width() const { return right - left; }` -/
def width (r : ScreenRect) : ℤ := r.right - r.left

/-- `height() const { return bottom - top; }` -/
def height (r : ScreenRect) : ℤ := r.bottom - r.top

end ScreenRect

/-- `TrackingSource` from `include/smoothzoom/common/Types.h`. -/
inductive TrackingSource where
  | Pointer
  | Focus
  | Caret
deriving DecidableEq

/-- `ViewportTracker::kCaretIdleTimeoutMs = 500`. -/
def kCaretIdleTimeoutMs : ℤ := 500

/-- `ViewportTracker::kFocusDebounceMs = 100`. -/
def kFocusDebounceMs : ℤ := 100

/-- `ViewportTracker::determineActiveSource` from `src/logic/ViewportTracker.cpp`
(lines 116–143), translated clause for clause. -/
def determineActiveSource (now lastPointerMoveTime lastFocusChangeTime
    lastKeyboardInputTime : ℤ) (focusRectValid caretRectValid : Bool) :
    TrackingSource :=
  if caretRectValid = true ∧ 0 < lastKeyboardInputTime ∧
      now - lastKeyboardInputTime < kCaretIdleTimeoutMs then
    .Caret
  else if focusRectValid = true ∧ 0 < lastFocusChangeTime ∧
      lastPointerMoveTime < lastFocusChangeTime ∧
      kFocusDebounceMs ≤ now - lastFocusChangeTime then
    .Focus
  else
    .Pointer

/-- `ViewportTracker::computePointerOffset` from `src/logic/ViewportTracker.cpp`
(lines 25–48), over exact rationals. -/
def computePointerOffset (pointerX pointerY : ℤ) (zoom : ℚ)
    (screenW screenH originX originY : ℤ) : ℚ × ℚ :=
  if zoom ≤ 1 then (0, 0)
  else
    let invZoom : ℚ := 1 / zoom
    let xOff : ℚ := (pointerX : ℚ) * (1 - invZoom)
    let yOff : ℚ := (pointerY : ℚ) * (1 - invZoom)
    let minOffX : ℚ := (originX : ℚ)
    let minOffY : ℚ := (originY : ℚ)
    let maxOffX : ℚ := (originX : ℚ) + (screenW : ℚ) * (1 - invZoom)
    let maxOffY : ℚ := (originY : ℚ) + (screenH : ℚ) * (1 - invZoom)
    (cppClamp xOff minOffX maxOffX, cppClamp yOff minOffY maxOffY)

/-- Per-frame focus-rect validity check from `RenderLoop::frameTick`
(`src/logic/RenderLoop.cpp` lines 342–344), before the settings gate. -/
def focusRectCheck (r : ScreenRect) : Bool :=
  0 < r.width ∧ 0 < r.height ∧ -5000 < r.left ∧ -5000 < r.top ∧
    r.width ≤ 10000 ∧ r.height ≤ 10000

/-- Per-frame caret-rect validity check from `RenderLoop::frameTick`
(`src/logic/RenderLoop.cpp` lines 345–347), before the settings gate. -/
def caretRectCheck (r : ScreenRect) : Bool :=
  0 ≤ r.width ∧ 0 < r.height ∧ -5000 < r.left ∧ -5000 < r.top ∧
    r.height ≤ 5000

/-- Modelled from the spec (§3, Invariants), for comparison with the code's
checks: a rect is valid iff width ≥ 0 (a caret may be 0-wide), height > 0,
width and height ≤ 10 000, and left, top ≥ −5 000. -/
def specRectValid (r : ScreenRect) : Prop :=
  0 ≤ r.width ∧ 0 < r.height ∧ r.width ≤ 10000 ∧ r.height ≤ 10000 ∧
    -5000 ≤ r.left ∧ -5000 ≤ r.top

instance (r : ScreenRect) : Decidable (specRectValid r) := by
  unfold specRectValid; infer_instance

/-! ### LockFreeQueue (include/smoothzoom/common/LockFreeQueue.h), Capacity 64

The SPSC ring, modelled sequentially: `head_`/`tail_` are indices already
reduced mod 64 (the code masks with `Capacity - 1` before every store), the
backing `std::array` is a function `Fin 64 → T`. -/

/-- State of `LockFreeQueue<T, 64>`. -/
structure LockFreeQueue (T : Type) where
  buffer : Fin 64 → T
  head : Fin 64
  tail : Fin 64

namespace LockFreeQueue

/-- Index arithmetic `(i + k) & (Capacity - 1)`. -/
def wrap (i : Fin 64) (k : ℕ) : Fin 64 :=
  ⟨((i : ℕ) + k) % 64, Nat.mod_lt _ (by norm_num)⟩

/-- `push` from `LockFreeQueue.h` lines 22–31: compute `next = (head + 1) & 63`;
fail if `next == tail`; else store at `head` and advance `head`. -/
def push {T : Type} (q : LockFreeQueue T) (item : T) : LockFreeQueue T × Bool :=
  let next := wrap q.head 1
  if next = q.tail then (q, false)
  else ({ buffer := Function.update q.buffer q.head item,
          head := next, tail := q.tail }, true)

/-- `pop` from `LockFreeQueue.h` lines 33–41: empty if `tail == head`; else
read at `tail` and advance `tail`. -/
def pop {T : Type} (q : LockFreeQueue T) : LockFreeQueue T × Option T :=
  if q.tail = q.head then (q, none)
  else ({ q with tail := wrap q.tail 1 }, some (q.buffer q.tail))

/-- Number of items currently stored: distance from `tail` up to `head`, mod 64. -/
def size {T : Type} (q : LockFreeQueue T) : ℕ :=
  ((q.head : ℕ) + 64 - (q.tail : ℕ)) % 64

/-- Abstraction: the stored items, oldest first (from `tail` up to `head`). -/
def toList {T : Type} (q : LockFreeQueue T) : List T :=
  (List.range (size q)).map (fun i => q.buffer (wrap q.tail i))

/-- The state that a successful `push` produces. -/
def pushedState {T : Type} (q : LockFreeQueue T) (item : T) : LockFreeQueue T :=
  { buffer := Function.update q.buffer q.head item,
    head := wrap q.head 1,
    tail := q.tail }

end LockFreeQueue

/-! ### ZoomController (src/logic/ZoomController.cpp)

Zoom state machine over exact reals: `std::pow(b, e)` becomes `Real.rpow`,
`std::log` becomes `Real.log`. -/

/-- `ZoomController::Mode`. -/
inductive Mode where
  | Idle
  | Scrolling
  | Animating
deriving DecidableEq

/-- The `ZoomController` fields (ZoomController.h lines 58–72). -/
structure ZoomController where
  currentZoom : ℝ
  targetZoom : ℝ
  minZoom : ℝ
  maxZoom : ℝ
  keyboardStep : ℝ
  mode : Mode
  isToggled : Bool
  savedZoomForToggle : ℝ
  lastUsedZoom : ℝ

/-- `kWheelDelta = 120.0f`. -/
def kWheelDelta : ℝ := 120

/-- `kScrollZoomBase = 1.1f`. -/
def kScrollZoomBase : ℝ := 1.1

/-- `kSnapEpsilon = 0.005f`. -/
def kSnapEpsilon : ℝ := 0.005

/-- `kEaseOutRate = 0.15`. -/
def kEaseOutRate : ℝ := 0.15

/-- `kReferenceHz = 60.0`. -/
def kReferenceHz : ℝ := 60

/-- `kSoftMarginFraction = 0.15f`. -/
def kSoftMarginFraction : ℝ := 0.15

/-- The two R-17 snaps applied in sequence (ZoomController.cpp lines 76–82,
also 103–107 and 129–133): snap to 1.0 within epsilon, then snap to max
within epsilon. -/
noncomputable def snapZoom (maxZoom x : ℝ) : ℝ :=
  let x1 := if |x - 1| < kSnapEpsilon then 1 else x
  if |x1 - maxZoom| < kSnapEpsilon then maxZoom else x1

/-- Soft-approach bounds attenuation of the normalized scroll delta
(ZoomController.cpp lines 46–69). -/
noncomputable def softAttenuate (zc : ZoomController) (normalizedDelta : ℝ) : ℝ :=
  let logMin := Real.log zc.minZoom
  let logMax := Real.log zc.maxZoom
  let logRange := logMax - logMin
  let margin := logRange * kSoftMarginFraction
  let logCurrent := Real.log zc.currentZoom
  if 0 < normalizedDelta ∧ logMax - margin < logCurrent then
    let t := cppClamp ((logCurrent - (logMax - margin)) / margin) 0 1
    normalizedDelta * (1 - t * t)
  else if normalizedDelta < 0 ∧ logCurrent < logMin + margin then
    let t := cppClamp (((logMin + margin) - logCurrent) / margin) 0 1
    normalizedDelta * (1 - t * t)
  else normalizedDelta

/-- `ZoomController::applyScrollDelta` (ZoomController.cpp lines 34–94). -/
noncomputable def applyScrollDelta (zc : ZoomController) (accumulatedDelta : ℤ) :
    ZoomController :=
  if accumulatedDelta = 0 then zc
  else
    let nd := softAttenuate zc ((accumulatedDelta : ℝ) / kWheelDelta)
    let newZoom := snapZoom zc.maxZoom
      (cppClamp (zc.currentZoom * kScrollZoomBase ^ nd) zc.minZoom zc.maxZoom)
    { zc with
      mode := .Scrolling
      currentZoom := newZoom
      targetZoom := newZoom
      savedZoomForToggle := if zc.isToggled then newZoom else zc.savedZoomForToggle
      lastUsedZoom := if 1 + kSnapEpsilon < newZoom then newZoom else zc.lastUsedZoom }

/-- The clamp-then-snap normalisation that `animateToZoom` applies to its
argument (ZoomController.cpp lines 127–133). -/
noncomputable def snapClampTarget (zc : ZoomController) (x : ℝ) : ℝ :=
  snapZoom zc.maxZoom (cppClamp x zc.minZoom zc.maxZoom)

/-- `ZoomController::animateToZoom` (ZoomController.cpp lines 125–144). -/
noncomputable def animateToZoom (zc : ZoomController) (target : ℝ) : ZoomController :=
  let t := snapClampTarget zc target
  if |zc.currentZoom - t| < kSnapEpsilon ∧ |zc.targetZoom - t| < kSnapEpsilon then zc
  else { zc with targetZoom := t, mode := .Animating }

/-- `ZoomController::engageToggle` (ZoomController.cpp lines 146–165): save
the current zoom and mark toggled, then animate to the last-used zoom when at
1.0 within epsilon, else record the last-used zoom and animate to 1.0. -/
noncomputable def engageToggle (zc : ZoomController) : ZoomController :=
  if zc.isToggled then zc
  else if |zc.currentZoom - 1| < kSnapEpsilon then
    animateToZoom { zc with savedZoomForToggle := zc.currentZoom, isToggled := true }
      zc.lastUsedZoom
  else
    animateToZoom
      { zc with
        savedZoomForToggle := zc.currentZoom
        isToggled := true
        lastUsedZoom := zc.currentZoom }
      1

/-- `ZoomController::releaseToggle` (ZoomController.cpp lines 167–174). -/
noncomputable def releaseToggle (zc : ZoomController) : ZoomController :=
  if zc.isToggled then
    animateToZoom { zc with isToggled := false } zc.savedZoomForToggle
  else zc

/-- The dt fallback and clamp at the head of `ZoomController::tick`
(ZoomController.cpp lines 193–197). -/
noncomputable def effectiveDt (dtSeconds : ℝ) : ℝ :=
  let dt1 := if dtSeconds ≤ 0 then 1 / kReferenceHz else dtSeconds
  if 0.1 < dt1 then 0.1 else dt1

/-- `alpha = 1.0 - pow(1.0 - kEaseOutRate, dt * kReferenceHz)`
(ZoomController.cpp line 199). -/
noncomputable def easeAlpha (dtSeconds : ℝ) : ℝ :=
  1 - (1 - kEaseOutRate) ^ (effectiveDt dtSeconds * kReferenceHz)

/-- `ZoomController::tick` (ZoomController.cpp lines 176–218). -/
noncomputable def tick (zc : ZoomController) (dtSeconds : ℝ) : ZoomController × Bool :=
  match zc.mode with
  | .Idle => (zc, false)
  | .Scrolling => (zc, true)
  | .Animating =>
    let newZoom := zc.currentZoom + (zc.targetZoom - zc.currentZoom) * easeAlpha dtSeconds
    if |newZoom - zc.targetZoom| < kSnapEpsilon then
      ({ zc with currentZoom := zc.targetZoom, mode := .Idle }, true)
    else
      ({ zc with currentZoom := newZoom }, true)

/-- Default-constructed `ZoomController` (field initializers in
ZoomController.h lines 58–72). -/
noncomputable def zcInit : ZoomController :=
  { currentZoom := 1, targetZoom := 1, minZoom := 1, maxZoom := 10,
    keyboardStep := 0.25, mode := .Idle, isToggled := false,
    savedZoomForToggle := 1, lastUsedZoom := 2 }

/-- Concrete not-toggled state used as the witness input for C8. -/
noncomputable def zcToggleStart : ZoomController :=
  { currentZoom := 3, targetZoom := 3, minZoom := 1, maxZoom := 10,
    keyboardStep := 0.25, mode := .Idle, isToggled := false,
    savedZoomForToggle := 1, lastUsedZoom := 2 }

/-- Idle state from which `animateToZoom 1.25` starts the C6 counterexample
animation. -/
noncomputable def zcC6start : ZoomController :=
  { currentZoom := 1.244, targetZoom := 1.244, minZoom := 1, maxZoom := 10,
    keyboardStep := 0.25, mode := .Idle, isToggled := false,
    savedZoomForToggle := 1, lastUsedZoom := 2 }

/-- The animating state of the C6 counterexample: current 1.244, target 1.25. -/
noncomputable def zcC6 : ZoomController :=
  { currentZoom := 1.244, targetZoom := 1.25, minZoom := 1, maxZoom := 10,
    keyboardStep := 0.25, mode := .Animating, isToggled := false,
    savedZoomForToggle := 1, lastUsedZoom := 2 }

/-- Concrete animating state (current 1, target 2) used as the C6 witness. -/
noncomputable def zcC6w : ZoomController :=
  { currentZoom := 1, targetZoom := 2, minZoom := 1, maxZoom := 10,
    keyboardStep := 0.25, mode := .Animating, isToggled := false,
    savedZoomForToggle := 1, lastUsedZoom := 2 }

/-- A scroll step with no bound interaction: no attenuation branch fires, the
result needs no clamping, and neither snap fires. -/
def cleanScrollStep (zc : ZoomController) (d : ℤ) : Prop :=
  (0 < d → Real.log zc.currentZoom ≤ Real.log zc.maxZoom -
    (Real.log zc.maxZoom - Real.log zc.minZoom) * kSoftMarginFraction) ∧
  (d < 0 → Real.log zc.minZoom +
    (Real.log zc.maxZoom - Real.log zc.minZoom) * kSoftMarginFraction ≤
    Real.log zc.currentZoom) ∧
  zc.minZoom ≤ zc.currentZoom * kScrollZoomBase ^ ((d : ℝ) / kWheelDelta) ∧
  zc.currentZoom * kScrollZoomBase ^ ((d : ℝ) / kWheelDelta) ≤ zc.maxZoom ∧
  kSnapEpsilon ≤ |zc.currentZoom * kScrollZoomBase ^ ((d : ℝ) / kWheelDelta) - 1| ∧
  kSnapEpsilon ≤ |zc.currentZoom * kScrollZoomBase ^ ((d : ℝ) / kWheelDelta) - zc.maxZoom|

/-- Folding a list of scroll deltas through `applyScrollDelta`. -/
noncomputable def scrollFold (zc : ZoomController) (ds : List ℤ) : ZoomController :=
  ds.foldl applyScrollDelta zc

/-- Every step along the fold is a `cleanScrollStep`. -/
def cleanScrollSeq : ZoomController → List ℤ → Prop
  | _, [] => True
  | zc, d :: ds => cleanScrollStep zc d ∧ cleanScrollSeq (applyScrollDelta zc d) ds

/-- Concrete mid-range state (current zoom 2, bounds [1, 10]) for the C3
witness: both 2 and 2.2 are outside the 15% soft-bound margins. -/
noncomputable def zcC3w : ZoomController :=
  { currentZoom := 2, targetZoom := 2, minZoom := 1, maxZoom := 10,
    keyboardStep := 0.25, mode := .Idle, isToggled := false,
    savedZoomForToggle := 1, lastUsedZoom := 2 }

/-- States along the S1 scenario: three +120 notches from the default state. -/
noncomputable def c2u1 : ZoomController := applyScrollDelta zcInit 120

noncomputable def c2u2 : ZoomController := applyScrollDelta c2u1 120

noncomputable def c2u3 : ZoomController := applyScrollDelta c2u2 120

/-- States along the S1 scenario: three −120 notches after the three +120. -/
noncomputable def c2d1 : ZoomController := applyScrollDelta c2u3 (-120)

noncomputable def c2d2 : ZoomController := applyScrollDelta c2d1 (-120)

noncomputable def c2d3 : ZoomController := applyScrollDelta c2d2 (-120)

/-! ### SettingsManager (src/support/SettingsManager.cpp)

`loadFromFile` is modelled on an already-read input: `none` stands for a file
that could not be opened, `some none` for contents that the JSON parser
discarded, and `some (some j)` for a parsed document, modelled as a key/value
list. -/

/-- A parsed JSON scalar, with the distinctions nlohmann/json exposes to
`is_number_integer`, `is_number` and `is_boolean`. -/
inductive JVal where
  | jint (i : ℤ)
  | jnum (q : ℚ)
  | jbool (b : Bool)
  | jother

/-- A parsed JSON object: key/value pairs. -/
abbrev Json := List (String × JVal)

/-- `is_number_integer()`. -/
def jIsInt : JVal → Bool
  | .jint _ => true
  | _ => false

/-- `is_number()` — true for integer and floating values. -/
def jIsNumber : JVal → Bool
  | .jint _ => true
  | .jnum _ => true
  | _ => false

/-- `is_boolean()`. -/
def jIsBool : JVal → Bool
  | .jbool _ => true
  | _ => false

/-- `get<int>()` on a value known to be an integer. -/
def jGetInt : JVal → ℤ
  | .jint i => i
  | _ => 0

/-- `get<float>()` on a value known to be a number. -/
def jGetFloat : JVal → ℚ
  | .jint i => (i : ℚ)
  | .jnum q => q
  | _ => 0

/-- `get<bool>()` on a value known to be a boolean. -/
def jGetBool : JVal → Bool
  | .jbool b => b
  | _ => false

/-- The `readInt` lambda (SettingsManager.cpp lines 59–66). -/
def readInt (j : Json) (key : String) (target lo hi : ℤ) : ℤ :=
  match j.lookup key with
  | some v =>
    if jIsInt v then
      if lo ≤ jGetInt v ∧ jGetInt v ≤ hi then jGetInt v else target
    else target
  | none => target

/-- The `readFloat` lambda (SettingsManager.cpp lines 74–81). -/
def readFloat (j : Json) (key : String) (target lo hi : ℚ) : ℚ :=
  match j.lookup key with
  | some v =>
    if jIsNumber v then
      if lo ≤ jGetFloat v ∧ jGetFloat v ≤ hi then jGetFloat v else target
    else target
  | none => target

/-- The `readBool` lambda (SettingsManager.cpp lines 98–101). -/
def readBool (j : Json) (key : String) (target : Bool) : Bool :=
  match j.lookup key with
  | some v => if jIsBool v then jGetBool v else target
  | none => target

/-- `SettingsSnapshot` (SettingsManager.h lines 18–36). -/
structure SettingsSnapshot where
  modifierKeyVK : ℤ
  minZoom : ℚ
  maxZoom : ℚ
  keyboardZoomStep : ℚ
  animationSpeed : ℤ
  imageSmoothingEnabled : Bool
  startWithWindows : Bool
  startZoomed : Bool
  defaultZoomLevel : ℚ
  followKeyboardFocus : Bool
  followTextCursor : Bool
  colorInversionEnabled : Bool
  toggleKey1VK : ℤ
  toggleKey2VK : ℤ

/-- The field initializers of `SettingsSnapshot` (SettingsManager.h). -/
def defaultSettings : SettingsSnapshot :=
  { modifierKeyVK := 0x5B, minZoom := 1, maxZoom := 10, keyboardZoomStep := 0.25,
    animationSpeed := 1, imageSmoothingEnabled := true, startWithWindows := false,
    startZoomed := false, defaultZoomLevel := 2, followKeyboardFocus := true,
    followTextCursor := true, colorInversionEnabled := false,
    toggleKey1VK := 0xA2, toggleKey2VK := 0xA4 }

/-- The `SettingsManager` state: the current snapshot handle and the version
counter. -/
structure SettingsManager where
  current : SettingsSnapshot
  version : ℕ

/-- `SettingsManager::loadFromFile` (SettingsManager.cpp lines 44–120): fail
before touching any state when the file is missing (`none`) or the document
is discarded by the parser (`some none`); otherwise build a snapshot from
defaults, reading and validating each field, publish it and bump the
version. -/
def loadFromFile (mgr : SettingsManager) (file : Option (Option Json)) :
    Bool × SettingsManager :=
  match file with
  | none => (false, mgr)
  | some none => (false, mgr)
  | some (some j) =>
    let minZoom0 := readFloat j "minZoom" defaultSettings.minZoom 1 10
    let maxZoom0 := readFloat j "maxZoom" defaultSettings.maxZoom 1 10
    let crossBad := maxZoom0 < minZoom0
    let minZoom1 := if crossBad then 1 else minZoom0
    let maxZoom1 := if crossBad then 10 else maxZoom0
    let s : SettingsSnapshot :=
      { modifierKeyVK := readInt j "modifierKeyVK" defaultSettings.modifierKeyVK 0 255
        animationSpeed := readInt j "animationSpeed" defaultSettings.animationSpeed 0 2
        toggleKey1VK := readInt j "toggleKey1VK" defaultSettings.toggleKey1VK 0 255
        toggleKey2VK := readInt j "toggleKey2VK" defaultSettings.toggleKey2VK 0 255
        minZoom := minZoom1
        maxZoom := maxZoom1
        keyboardZoomStep := readFloat j "keyboardZoomStep" defaultSettings.keyboardZoomStep 0.05 1
        defaultZoomLevel := readFloat j "defaultZoomLevel" defaultSettings.defaultZoomLevel minZoom1 maxZoom1
        imageSmoothingEnabled := readBool j "imageSmoothingEnabled" defaultSettings.imageSmoothingEnabled
        startWithWindows := readBool j "startWithWindows" defaultSettings.startWithWindows
        startZoomed := readBool j "startZoomed" defaultSettings.startZoomed
        followKeyboardFocus := readBool j "followKeyboardFocus" defaultSettings.followKeyboardFocus
        followTextCursor := readBool j "followTextCursor" defaultSettings.followTextCursor
        colorInversionEnabled := readBool j "colorInversionEnabled" defaultSettings.colorInversionEnabled }
    (true, { current := s, version := mgr.version + 1 })

/-- `SettingsManager::snapshot`. -/
def SettingsManager.snapshot (mgr : SettingsManager) : SettingsSnapshot :=
  mgr.current

theorem cppClamp_eq_self {α : Type} [LinearOrder α] (v lo hi : α)
    (h1 : lo ≤ v) (h2 : v ≤ hi) : cppClamp v lo hi = v := by
  unfold cppClamp
  rw [if_neg (not_lt.mpr h1), if_neg (not_lt.mpr h2)]

/-- Claim C4: `determineActiveSource` returns `Caret` iff the caret rect is
valid, the last keyboard time is positive and less than 500 ms old; otherwise
`Focus` iff the focus rect is valid, the last focus change is positive, newer
than the last pointer move and at least 100 ms old; otherwise `Pointer` — for
every combination of timestamps and validity flags. -/
theorem determineActiveSource_spec (now lpm lfc lkt : ℤ) (fv cv : Bool) :
    (determineActiveSource now lpm lfc lkt fv cv = .Caret ↔
      (cv = true ∧ 0 < lkt ∧ now - lkt < 500)) ∧
    (determineActiveSource now lpm lfc lkt fv cv = .Focus ↔
      (¬(cv = true ∧ 0 < lkt ∧ now - lkt < 500) ∧
        (fv = true ∧ 0 < lfc ∧ lpm < lfc ∧ 100 ≤ now - lfc))) ∧
    (determineActiveSource now lpm lfc lkt fv cv = .Pointer ↔
      (¬(cv = true ∧ 0 < lkt ∧ now - lkt < 500) ∧
        ¬(fv = true ∧ 0 < lfc ∧ lpm < lfc ∧ 100 ≤ now - lfc))) := by
  unfold determineActiveSource kCaretIdleTimeoutMs kFocusDebounceMs
  split_ifs with h1 h2 <;> simp_all

/-- Claim C5 counterexample: the caret rectangle with corners (0,0)-(0,6000)
is valid per the spec's §3 definition (0-wide is allowed for a caret, height
6000 ≤ 10000, left/top ≥ −5000), yet the render loop's per-frame caret check
rejects it, because the code caps caret height at 5000, not 10000. -/
theorem rectCheck_ne_spec_counterexample :
    specRectValid ⟨0, 0, 0, 6000⟩ ∧ caretRectCheck ⟨0, 0, 0, 6000⟩ = false := by
  constructor
  · decide
  · decide

/-- Claim C5 amended: the render loop's per-frame checks accept a focus
rectangle exactly when width > 0, height > 0, left > −5000, top > −5000,
width ≤ 10000 and height ≤ 10000; and a caret rectangle exactly when
width ≥ 0, height > 0, left > −5000, top > −5000 and height ≤ 5000 (the code
uses strict bounds on left/top, caps caret height at 5000 and places no upper
bound on caret width, diverging from the spec's §3 validity definition). -/
theorem rectCheck_spec_amended (r : ScreenRect) :
    (focusRectCheck r = true ↔
      (0 < r.width ∧ 0 < r.height ∧ -5000 < r.left ∧ -5000 < r.top ∧
        r.width ≤ 10000 ∧ r.height ≤ 10000)) ∧
    (caretRectCheck r = true ↔
      (0 ≤ r.width ∧ 0 < r.height ∧ -5000 < r.left ∧ -5000 < r.top ∧
        r.height ≤ 5000)) := by
  unfold focusRectCheck caretRectCheck
  constructor <;> simp

/-- Claim C1 counterexample: at pointer (2000, 0), zoom 2 ∈ (1, 10], screen
3000×1000 and virtual-desktop origin (−1000, 0) — so the pointer is inside
[ox, ox+w] × [oy, oy+h] — the clamped offset misses the
zoom-center-under-pointer invariant by 500 pixels, far beyond 0.1. -/
theorem computePointerOffset_counterexample :
    ((1:ℚ) < 2 ∧ (2:ℚ) ≤ 10) ∧
    ((-1000:ℤ) ≤ 2000 ∧ (2000:ℤ) ≤ -1000 + 3000 ∧ (0:ℤ) ≤ 0 ∧ (0:ℤ) ≤ 0 + 1000) ∧
    (1/10 : ℚ) <
      |(computePointerOffset 2000 0 2 3000 1000 (-1000) 0).1 + 2000 / 2 - 2000| := by
  refine ⟨by norm_num, by norm_num, ?_⟩
  norm_num [computePointerOffset, cppClamp]

/-- Claim C1 amended: with the virtual-desktop origin at (0, 0) (the header's
default arguments), for every zoom z ∈ (1, 10] and every pointer position in
[0, w] × [0, h], the offset satisfies the zoom-center-under-pointer invariant
exactly (off.x + px/z = px and off.y + py/z = py, error 0 ≤ 0.1); the clamping
branches are never taken there. With a nonzero origin the invariant fails once
a clamp engages (see the counterexample). -/
theorem computePointerOffset_invariant (z : ℚ) (px py w h : ℤ)
    (hz1 : 1 < z) (hz2 : z ≤ 10) (hpx0 : 0 ≤ px) (hpxw : px ≤ w)
    (hpy0 : 0 ≤ py) (hpyh : py ≤ h) :
    (computePointerOffset px py z w h 0 0).1 + (px : ℚ) / z = px ∧
    (computePointerOffset px py z w h 0 0).2 + (py : ℚ) / z = py := by
  have hz0 : (0:ℚ) < z := lt_trans one_pos hz1
  have hzne : z ≠ 0 := ne_of_gt hz0
  have hfac : (0:ℚ) ≤ 1 - 1 / z := by
    have h1 : 1 / z < 1 := by rw [div_lt_one hz0]; exact hz1
    linarith
  have hunclamped : ∀ (p q : ℤ), 0 ≤ p → p ≤ q →
      cppClamp ((p : ℚ) * (1 - 1 / z)) ((0:ℤ) : ℚ)
        (((0:ℤ) : ℚ) + (q : ℚ) * (1 - 1 / z)) = (p : ℚ) * (1 - 1 / z) := by
    intro p q hp hpq
    apply cppClamp_eq_self
    · push_cast
      exact mul_nonneg (by exact_mod_cast hp) hfac
    · push_cast
      rw [zero_add]
      exact mul_le_mul_of_nonneg_right (by exact_mod_cast hpq) hfac
  have hco : computePointerOffset px py z w h 0 0 =
      ((px : ℚ) * (1 - 1 / z), (py : ℚ) * (1 - 1 / z)) := by
    unfold computePointerOffset
    rw [if_neg (not_le.mpr hz1)]
    simp only
    rw [hunclamped px w hpx0 hpxw, hunclamped py h hpy0 hpyh]
  rw [hco]
  constructor
  · show (px : ℚ) * (1 - 1 / z) + (px : ℚ) / z = px
    field_simp
    ring
  · show (py : ℚ) * (1 - 1 / z) + (py : ℚ) / z = py
    field_simp
    ring

/-- Witness for the amended C1 invariant at z = 2, pointer (3, 1), screen 4×2,
origin (0, 0). -/
theorem computePointerOffset_invariant_witness :
    (computePointerOffset 3 1 2 4 2 0 0).1 + (3 : ℚ) / 2 = 3 ∧
    (computePointerOffset 3 1 2 4 2 0 0).2 + (1 : ℚ) / 2 = 1 := by
  have h := computePointerOffset_invariant 2 3 1 4 2 (by norm_num) (by norm_num)
    (by norm_num) (by norm_num) (by norm_num) (by norm_num)
  exact ⟨by have h1 := h.1; norm_num at h1 ⊢; exact h1,
    by have h2 := h.2; norm_num at h2 ⊢; exact h2⟩

namespace LockFreeQueue

theorem toList_length {T : Type} (q : LockFreeQueue T) :
    (toList q).length = size q := by
  simp [toList]

theorem size_le_63 {T : Type} (q : LockFreeQueue T) : size q ≤ 63 :=
  Nat.le_of_lt_succ (Nat.mod_lt _ (by norm_num))

theorem pop_of_empty {T : Type} (q : LockFreeQueue T) (h : q.tail = q.head) :
    pop q = (q, none) ∧ toList q = [] := by
  have hsz : size q = 0 := by
    unfold size
    have : (q.tail : ℕ) = (q.head : ℕ) := by rw [h]
    omega
  refine ⟨by unfold pop; rw [if_pos h], ?_⟩
  unfold toList
  rw [hsz]
  rfl

theorem pop_of_nonempty {T : Type} (q : LockFreeQueue T) (h : q.tail ≠ q.head) :
    toList q = q.buffer q.tail :: toList (pop q).1 ∧
    pop q = ({ q with tail := wrap q.tail 1 }, some (q.buffer q.tail)) := by
  have hne : (q.tail : ℕ) ≠ (q.head : ℕ) := fun hc => h (Fin.ext hc)
  have ht := q.tail.isLt
  have hh := q.head.isLt
  have hpop : pop q = ({ q with tail := wrap q.tail 1 }, some (q.buffer q.tail)) := by
    unfold pop
    rw [if_neg h]
  refine ⟨?_, hpop⟩
  rw [hpop]
  have hsz : size q = size ({ q with tail := wrap q.tail 1 } : LockFreeQueue T) + 1 := by
    show ((q.head : ℕ) + 64 - (q.tail : ℕ)) % 64 =
      ((q.head : ℕ) + 64 - ((q.tail : ℕ) + 1) % 64) % 64 + 1
    omega
  unfold toList
  simp only [hsz, List.range_succ_eq_map, List.map_cons, List.map_map]
  congr 1
  · congr 1
    apply Fin.ext
    show ((q.tail : ℕ) + 0) % 64 = (q.tail : ℕ)
    omega
  · apply List.map_congr_left
    intro i _
    show q.buffer (wrap q.tail (Nat.succ i)) = q.buffer (wrap (wrap q.tail 1) i)
    congr 1
    apply Fin.ext
    show ((q.tail : ℕ) + (i + 1)) % 64 = (((q.tail : ℕ) + 1) % 64 + i) % 64
    omega

theorem push_of_full {T : Type} (q : LockFreeQueue T) (item : T)
    (h : size q = 63) : push q item = (q, false) := by
  have ht := q.tail.isLt
  have hh := q.head.isLt
  have hnext : wrap q.head 1 = q.tail := by
    apply Fin.ext
    show ((q.head : ℕ) + 1) % 64 = (q.tail : ℕ)
    unfold size at h
    omega
  unfold push
  simp only
  rw [if_pos hnext]

theorem push_of_notfull {T : Type} (q : LockFreeQueue T) (item : T)
    (h : size q < 63) :
    push q item = (pushedState q item, true) ∧
    toList (pushedState q item) = toList q ++ [item] := by
  have ht := q.tail.isLt
  have hh := q.head.isLt
  have hnext : wrap q.head 1 ≠ q.tail := by
    intro hc
    have hc2 : ((q.head : ℕ) + 1) % 64 = (q.tail : ℕ) := congrArg Fin.val hc
    unfold size at h
    omega
  refine ⟨by unfold push pushedState; simp only; rw [if_neg hnext], ?_⟩
  have hsz : size (pushedState q item) = size q + 1 := by
    show (((q.head : ℕ) + 1) % 64 + 64 - (q.tail : ℕ)) % 64 =
      ((q.head : ℕ) + 64 - (q.tail : ℕ)) % 64 + 1
    unfold size at h
    omega
  unfold toList
  rw [hsz, List.range_succ, List.map_append, List.map_singleton]
  congr 1
  · apply List.map_congr_left
    intro i hi
    rw [List.mem_range] at hi
    have hslot : wrap q.tail i ≠ q.head := by
      intro hc
      have hc2 : ((q.tail : ℕ) + i) % 64 = (q.head : ℕ) := congrArg Fin.val hc
      unfold size at h hi
      omega
    show Function.update q.buffer q.head item (wrap q.tail i) = q.buffer (wrap q.tail i)
    rw [Function.update_noteq hslot]
  · have hslot : wrap q.tail (size q) = q.head := by
      apply Fin.ext
      show ((q.tail : ℕ) + size q) % 64 = (q.head : ℕ)
      unfold size at h ⊢
      omega
    have hb : Function.update q.buffer q.head item (wrap q.tail (size q)) = item := by
      rw [hslot, Function.update_same]
    show [Function.update q.buffer q.head item (wrap q.tail (size q))] = [item]
    rw [hb]

end LockFreeQueue

/-- Claim C9: sequential FIFO correctness of the capacity-64 command ring.
For every queue state and item: a push succeeds exactly when the ring is not
full (it holds fewer than 63 items — with one slot kept empty, 63 is the full
mark of a 64-slot ring, so the capacity bound is respected); a successful push
appends the item at the back and a failed push changes nothing; pop returns
exactly the front (oldest successfully pushed) item and removes it; pop
returns empty exactly when the queue holds no items. Hence pushed commands
are consumed in FIFO order of their successful pushes. -/
theorem lockFreeQueue_fifo {T : Type} (q : LockFreeQueue T) (item : T) :
    ((LockFreeQueue.push q item).2 = true ↔ (LockFreeQueue.toList q).length < 63) ∧
    (LockFreeQueue.toList (LockFreeQueue.push q item).1 =
      if (LockFreeQueue.toList q).length < 63
      then LockFreeQueue.toList q ++ [item] else LockFreeQueue.toList q) ∧
    ((LockFreeQueue.pop q).2 = (LockFreeQueue.toList q).head?) ∧
    (LockFreeQueue.toList (LockFreeQueue.pop q).1 = (LockFreeQueue.toList q).tail) ∧
    ((LockFreeQueue.pop q).2 = none ↔ LockFreeQueue.toList q = []) ∧
    (LockFreeQueue.toList q).length ≤ 63 := by
  rw [LockFreeQueue.toList_length]
  have hcap := LockFreeQueue.size_le_63 q
  have hpush : ((LockFreeQueue.push q item).2 = true ↔ LockFreeQueue.size q < 63) ∧
      (LockFreeQueue.toList (LockFreeQueue.push q item).1 =
        if LockFreeQueue.size q < 63
        then LockFreeQueue.toList q ++ [item] else LockFreeQueue.toList q) := by
    by_cases hfull : LockFreeQueue.size q < 63
    · have h2 := LockFreeQueue.push_of_notfull q item hfull
      rw [h2.1, if_pos hfull]
      exact ⟨by simp [hfull], h2.2⟩
    · have heq : LockFreeQueue.size q = 63 := le_antisymm hcap (not_lt.mp hfull)
      rw [LockFreeQueue.push_of_full q item heq, if_neg hfull]
      simp [hfull]
  have hpop : ((LockFreeQueue.pop q).2 = (LockFreeQueue.toList q).head?) ∧
      (LockFreeQueue.toList (LockFreeQueue.pop q).1 = (LockFreeQueue.toList q).tail) ∧
      ((LockFreeQueue.pop q).2 = none ↔ LockFreeQueue.toList q = []) := by
    by_cases hempty : q.tail = q.head
    · have h2 := LockFreeQueue.pop_of_empty q hempty
      rw [h2.1, h2.2]
      simp
    · obtain ⟨hcons, hpeq⟩ := LockFreeQueue.pop_of_nonempty q hempty
      have h2p : (LockFreeQueue.pop q).2 = some (q.buffer q.tail) := by rw [hpeq]
      refine ⟨?_, ?_, ?_⟩
      · rw [h2p, hcons]
        simp
      · conv_rhs => rw [hcons]
        simp
      · rw [h2p, hcons]
        simp
  exact ⟨hpush.1, hpush.2, hpop.1, hpop.2.1, hpop.2.2, hcap⟩

/-- Claim C10: `tick` modifies at most the current zoom and the mode — the
animation target, the zoom bounds, the keyboard step and the whole toggle
state are unchanged by `tick`, for every state and every dt. -/
theorem tick_frame_effect (zc : ZoomController) (dt : ℝ) :
    (tick zc dt).1.targetZoom = zc.targetZoom ∧
    (tick zc dt).1.minZoom = zc.minZoom ∧
    (tick zc dt).1.maxZoom = zc.maxZoom ∧
    (tick zc dt).1.keyboardStep = zc.keyboardStep ∧
    (tick zc dt).1.isToggled = zc.isToggled ∧
    (tick zc dt).1.savedZoomForToggle = zc.savedZoomForToggle ∧
    (tick zc dt).1.lastUsedZoom = zc.lastUsedZoom := by
  obtain ⟨cur, tgt, mn, mx, ks, mode, tog, saved, lu⟩ := zc
  cases mode <;>
    first
      | exact ⟨rfl, rfl, rfl, rfl, rfl, rfl, rfl⟩
      | (simp only [tick]; split_ifs <;> exact ⟨rfl, rfl, rfl, rfl, rfl, rfl, rfl⟩)

theorem animateToZoom_fields (zc : ZoomController) (x : ℝ) :
    (animateToZoom zc x).currentZoom = zc.currentZoom ∧
    (animateToZoom zc x).minZoom = zc.minZoom ∧
    (animateToZoom zc x).maxZoom = zc.maxZoom ∧
    (animateToZoom zc x).isToggled = zc.isToggled ∧
    (animateToZoom zc x).savedZoomForToggle = zc.savedZoomForToggle ∧
    (animateToZoom zc x).lastUsedZoom = zc.lastUsedZoom := by
  simp only [animateToZoom]
  split_ifs <;> exact ⟨rfl, rfl, rfl, rfl, rfl, rfl⟩

theorem animateToZoom_target_close (zc : ZoomController) (x : ℝ) :
    |(animateToZoom zc x).targetZoom - snapClampTarget zc x| < kSnapEpsilon := by
  simp only [animateToZoom]
  split_ifs with h
  · exact h.2
  · show |snapClampTarget zc x - snapClampTarget zc x| < kSnapEpsilon
    rw [sub_self, abs_zero]
    norm_num [kSnapEpsilon]

theorem snapClampTarget_congr (zc1 zc2 : ZoomController) (x : ℝ)
    (hmin : zc1.minZoom = zc2.minZoom) (hmax : zc1.maxZoom = zc2.maxZoom) :
    snapClampTarget zc1 x = snapClampTarget zc2 x := by
  unfold snapClampTarget
  rw [hmin, hmax]

theorem engage_release_core (zc W : ZoomController) (x : ℝ)
    (hW : engageToggle zc = animateToZoom W x)
    (hsaved : W.savedZoomForToggle = zc.currentZoom)
    (htog : W.isToggled = true)
    (hmin : W.minZoom = zc.minZoom) (hmax : W.maxZoom = zc.maxZoom) :
    (engageToggle zc).savedZoomForToggle = zc.currentZoom ∧
    (engageToggle zc).isToggled = true ∧
    (releaseToggle (engageToggle zc)).isToggled = false ∧
    |(releaseToggle (engageToggle zc)).targetZoom -
      snapClampTarget zc zc.currentZoom| < kSnapEpsilon := by
  obtain ⟨f1, f2, f3, f4, f5, f6⟩ := animateToZoom_fields W x
  have hsv : (animateToZoom W x).savedZoomForToggle = zc.currentZoom := by
    rw [f5, hsaved]
  have htg : (animateToZoom W x).isToggled = true := by rw [f4, htog]
  have hrel : releaseToggle (animateToZoom W x) =
      animateToZoom { animateToZoom W x with isToggled := false }
        (animateToZoom W x).savedZoomForToggle := by
    unfold releaseToggle
    rw [if_pos htg]
  refine ⟨by rw [hW]; exact hsv, by rw [hW]; exact htg, ?_, ?_⟩
  · rw [hW, hrel]
    exact (animateToZoom_fields { animateToZoom W x with isToggled := false }
      (animateToZoom W x).savedZoomForToggle).2.2.2.1
  · rw [hW, hrel]
    have hclose := animateToZoom_target_close
      { animateToZoom W x with isToggled := false }
      (animateToZoom W x).savedZoomForToggle
    have hcongr : snapClampTarget { animateToZoom W x with isToggled := false }
        (animateToZoom W x).savedZoomForToggle =
        snapClampTarget zc (animateToZoom W x).savedZoomForToggle := by
      apply snapClampTarget_congr
      · show (animateToZoom W x).minZoom = zc.minZoom
        rw [f2, hmin]
      · show (animateToZoom W x).maxZoom = zc.maxZoom
        rw [f3, hmax]
    have harg : snapClampTarget zc (animateToZoom W x).savedZoomForToggle =
        snapClampTarget zc zc.currentZoom := by rw [hsv]
    rw [hcongr, harg] at hclose
    exact hclose

/-- Claim C8: starting from any state that is not toggled, `engageToggle`
saves the current zoom in `savedZoomForToggle`, and an immediately following
`releaseToggle` marks the controller not toggled and restores the animation
target to that saved zoom up to clamping to [minZoom, maxZoom] and the 0.005
snap — the target ends exactly at `snapClampTarget` of the saved zoom when
the restoring `animateToZoom` is not a no-op, and within its 0.005 epsilon
when it is, so in all cases within 0.005 of it; `engageToggle` when already
toggled and `releaseToggle` when not toggled are no-ops. -/
theorem toggle_roundtrip (zc : ZoomController) (h : zc.isToggled = false) :
    (engageToggle zc).savedZoomForToggle = zc.currentZoom ∧
    (engageToggle zc).isToggled = true ∧
    (releaseToggle (engageToggle zc)).isToggled = false ∧
    |(releaseToggle (engageToggle zc)).targetZoom -
      snapClampTarget zc zc.currentZoom| < kSnapEpsilon ∧
    (∀ w : ZoomController, w.isToggled = true → engageToggle w = w) ∧
    (∀ w : ZoomController, w.isToggled = false → releaseToggle w = w) := by
  have hidem1 : ∀ w : ZoomController, w.isToggled = true → engageToggle w = w := by
    intro w hw
    unfold engageToggle
    rw [if_pos hw]
  have hidem2 : ∀ w : ZoomController, w.isToggled = false → releaseToggle w = w := by
    intro w hw
    unfold releaseToggle
    rw [if_neg (by rw [hw]; simp)]
  have hng : ¬(zc.isToggled = true) := by rw [h]; simp
  have hE : engageToggle zc =
      animateToZoom { zc with savedZoomForToggle := zc.currentZoom, isToggled := true }
        zc.lastUsedZoom ∨
      engageToggle zc =
      animateToZoom
        { zc with
          savedZoomForToggle := zc.currentZoom
          isToggled := true
          lastUsedZoom := zc.currentZoom }
        1 := by
    unfold engageToggle
    rw [if_neg hng]
    split_ifs with hc
    · exact Or.inl rfl
    · exact Or.inr rfl
  rcases hE with hE | hE
  · have core := engage_release_core zc
      { zc with savedZoomForToggle := zc.currentZoom, isToggled := true }
      zc.lastUsedZoom hE rfl rfl rfl rfl
    exact ⟨core.1, core.2.1, core.2.2.1, core.2.2.2, hidem1, hidem2⟩
  · have core := engage_release_core zc
      { zc with
        savedZoomForToggle := zc.currentZoom
        isToggled := true
        lastUsedZoom := zc.currentZoom }
      1 hE rfl rfl rfl rfl
    exact ⟨core.1, core.2.1, core.2.2.1, core.2.2.2, hidem1, hidem2⟩

/-- Witness for C8 at a concrete state with current zoom 3. -/
theorem toggle_roundtrip_witness :
    (engageToggle zcToggleStart).savedZoomForToggle = zcToggleStart.currentZoom ∧
    (releaseToggle (engageToggle zcToggleStart)).isToggled = false ∧
    |(releaseToggle (engageToggle zcToggleStart)).targetZoom -
      snapClampTarget zcToggleStart zcToggleStart.currentZoom| < kSnapEpsilon :=
  ⟨(toggle_roundtrip zcToggleStart rfl).1,
   (toggle_roundtrip zcToggleStart rfl).2.2.1,
   (toggle_roundtrip zcToggleStart rfl).2.2.2.1⟩

theorem effectiveDt_pos (dt : ℝ) : 0 < effectiveDt dt := by
  simp only [effectiveDt, kReferenceHz]
  split_ifs with ha hb hb
  · norm_num
  · norm_num
  · norm_num
  · exact not_le.mp ha

theorem easeAlpha_le_one (dt : ℝ) :
    0 ≤ 1 - easeAlpha dt ∧ 1 - easeAlpha dt ≤ 1 := by
  have hx : 0 ≤ effectiveDt dt * kReferenceHz := by
    apply mul_nonneg (effectiveDt_pos dt).le
    norm_num [kReferenceHz]
  have hba : 1 - easeAlpha dt =
      (1 - kEaseOutRate) ^ (effectiveDt dt * kReferenceHz) := by
    unfold easeAlpha
    ring
  constructor
  · rw [hba]
    exact Real.rpow_nonneg (by norm_num [kEaseOutRate]) _
  · rw [hba]
    exact Real.rpow_le_one (by norm_num [kEaseOutRate])
      (by norm_num [kEaseOutRate]) hx

theorem tick_animating (zc : ZoomController) (dt : ℝ) (hm : zc.mode = .Animating) :
    tick zc dt =
      if |zc.currentZoom + (zc.targetZoom - zc.currentZoom) * easeAlpha dt -
          zc.targetZoom| < kSnapEpsilon then
        ({ zc with currentZoom := zc.targetZoom, mode := .Idle }, true)
      else
        ({ zc with currentZoom :=
            zc.currentZoom + (zc.targetZoom - zc.currentZoom) * easeAlpha dt }, true) := by
  unfold tick
  rw [hm]

/-- Claim C6 amended: during an animation ticked with a constant dt the
per-frame zoom deltas shrink by the constant factor (1 − α) on every frame
that does not snap — so their magnitudes are non-increasing across all pairs
of consecutive frames except possibly the last one; on the final frame, where
the value snaps to the target and the mode returns to Idle, the delta can
exceed the previous frame's delta (see the counterexample). -/
theorem easeout_delta_nonincreasing (zc : ZoomController) (dt : ℝ)
    (h1 : zc.mode = .Animating)
    (h2 : (tick (tick zc dt).1 dt).1.mode = .Animating) :
    |(tick (tick zc dt).1 dt).1.currentZoom - (tick zc dt).1.currentZoom| ≤
      |(tick zc dt).1.currentZoom - zc.currentZoom| := by
  obtain ⟨hb0, hb1⟩ := easeAlpha_le_one dt
  have ht1 := tick_animating zc dt h1
  by_cases hc1 : |zc.currentZoom + (zc.targetZoom - zc.currentZoom) * easeAlpha dt -
      zc.targetZoom| < kSnapEpsilon
  · -- first tick snapped: the second tick is on an Idle state, contradicting h2
    have hs1 : (tick zc dt).1 =
        { zc with currentZoom := zc.targetZoom, mode := .Idle } := by
      rw [ht1, if_pos hc1]
    have hidle : (tick (tick zc dt).1 dt).1.mode = .Idle := by
      rw [hs1]
      exact rfl
    exact absurd (hidle.symm.trans h2) (by simp)
  · have hs1 : (tick zc dt).1 =
        { zc with currentZoom :=
            zc.currentZoom + (zc.targetZoom - zc.currentZoom) * easeAlpha dt } := by
      rw [ht1, if_neg hc1]
    have hm1 : (tick zc dt).1.mode = .Animating := by
      rw [hs1]
      exact h1
    have ht2 := tick_animating (tick zc dt).1 dt hm1
    by_cases hc2 : |(tick zc dt).1.currentZoom +
        ((tick zc dt).1.targetZoom - (tick zc dt).1.currentZoom) * easeAlpha dt -
        (tick zc dt).1.targetZoom| < kSnapEpsilon
    · have hs2 : (tick (tick zc dt).1 dt).1 =
          { (tick zc dt).1 with
            currentZoom := (tick zc dt).1.targetZoom
            mode := .Idle } := by
        rw [ht2, if_pos hc2]
      have hidle : (tick (tick zc dt).1 dt).1.mode = .Idle := by
        rw [hs2]
      exact absurd (hidle.symm.trans h2) (by simp)
    · have hs2 : (tick (tick zc dt).1 dt).1 =
          { (tick zc dt).1 with currentZoom := (tick zc dt).1.currentZoom +
            ((tick zc dt).1.targetZoom - (tick zc dt).1.currentZoom) * easeAlpha dt } := by
        rw [ht2, if_neg hc2]
      rw [hs2, hs1]
      dsimp only
      have e1 : zc.currentZoom + (zc.targetZoom - zc.currentZoom) * easeAlpha dt +
          (zc.targetZoom -
            (zc.currentZoom + (zc.targetZoom - zc.currentZoom) * easeAlpha dt)) *
            easeAlpha dt -
          (zc.currentZoom + (zc.targetZoom - zc.currentZoom) * easeAlpha dt) =
          (1 - easeAlpha dt) * ((zc.targetZoom - zc.currentZoom) * easeAlpha dt) := by
        ring
      have e2 : zc.currentZoom + (zc.targetZoom - zc.currentZoom) * easeAlpha dt -
          zc.currentZoom = (zc.targetZoom - zc.currentZoom) * easeAlpha dt := by
        ring
      rw [e1, e2]
      calc |(1 - easeAlpha dt) * ((zc.targetZoom - zc.currentZoom) * easeAlpha dt)|
          = |1 - easeAlpha dt| * |(zc.targetZoom - zc.currentZoom) * easeAlpha dt| :=
            abs_mul _ _
        _ = (1 - easeAlpha dt) * |(zc.targetZoom - zc.currentZoom) * easeAlpha dt| := by
            rw [abs_of_nonneg hb0]
        _ ≤ 1 * |(zc.targetZoom - zc.currentZoom) * easeAlpha dt| :=
            mul_le_mul_of_nonneg_right hb1 (abs_nonneg _)
        _ = |(zc.targetZoom - zc.currentZoom) * easeAlpha dt| := one_mul _

theorem easeAlpha_at_sixtieth : easeAlpha (1 / 60 : ℝ) = 0.15 := by
  have heff : effectiveDt (1 / 60 : ℝ) = 1 / 60 := by
    simp only [effectiveDt, kReferenceHz]
    norm_num
  unfold easeAlpha
  rw [heff, show ((1 : ℝ) / 60 * kReferenceHz) = 1 by norm_num [kReferenceHz],
    Real.rpow_one]
  norm_num [kEaseOutRate]

/-- Claim C6 counterexample: the animation started by `animateToZoom 1.25`
from current zoom 1.244 runs for exactly two frames at dt = 1/60 (α = 0.15):
frame 1 moves 1.244 → 1.2449 (delta 0.0009, no snap), frame 2 snaps to the
target 1.25 (delta 0.0051) and returns the mode to Idle. The final frame's
delta magnitude exceeds the previous frame's, so the per-frame deltas of this
animation are not non-increasing through the snapping frame. -/
theorem easeout_counterexample :
    animateToZoom zcC6start 1.25 = zcC6 ∧
    (tick zcC6 (1 / 60)).1.mode = Mode.Animating ∧
    (tick (tick zcC6 (1 / 60)).1 (1 / 60)).1.mode = Mode.Idle ∧
    |(tick zcC6 (1 / 60)).1.currentZoom - zcC6.currentZoom| <
      |(tick (tick zcC6 (1 / 60)).1 (1 / 60)).1.currentZoom -
        (tick zcC6 (1 / 60)).1.currentZoom| := by
  have hstart : animateToZoom zcC6start 1.25 = zcC6 := by
    have hsct : snapClampTarget zcC6start (1.25 : ℝ) = 1.25 := by
      simp only [snapClampTarget, zcC6start, cppClamp, snapZoom, kSnapEpsilon]
      norm_num [abs_lt, le_abs]
    simp only [animateToZoom, hsct]
    rw [if_neg ?hne]
    case hne =>
      simp only [zcC6start, kSnapEpsilon]
      norm_num [abs_lt, le_abs]
    simp only [zcC6start, zcC6]
  have ht1 := tick_animating zcC6 (1 / 60) rfl
  have hc1 : ¬(|zcC6.currentZoom +
      (zcC6.targetZoom - zcC6.currentZoom) * easeAlpha (1 / 60) -
      zcC6.targetZoom| < kSnapEpsilon) := by
    rw [easeAlpha_at_sixtieth]
    simp only [zcC6, kSnapEpsilon]
    norm_num [abs_lt, le_abs]
  have hs1 : (tick zcC6 (1 / 60)).1 =
      { zcC6 with currentZoom := zcC6.currentZoom +
        (zcC6.targetZoom - zcC6.currentZoom) * easeAlpha (1 / 60) } := by
    rw [ht1, if_neg hc1]
  have hm1 : (tick zcC6 (1 / 60)).1.mode = Mode.Animating := by
    rw [hs1]
    exact rfl
  have hcur1 : (tick zcC6 (1 / 60)).1.currentZoom = 1.2449 := by
    rw [hs1]
    show zcC6.currentZoom + (zcC6.targetZoom - zcC6.currentZoom) * easeAlpha (1 / 60) =
      1.2449
    rw [easeAlpha_at_sixtieth]
    simp only [zcC6]
    norm_num
  have htgt1 : (tick zcC6 (1 / 60)).1.targetZoom = 1.25 := by
    rw [hs1]
    exact rfl
  have ht2 := tick_animating (tick zcC6 (1 / 60)).1 (1 / 60) hm1
  have hc2 : |(tick zcC6 (1 / 60)).1.currentZoom +
      ((tick zcC6 (1 / 60)).1.targetZoom - (tick zcC6 (1 / 60)).1.currentZoom) *
        easeAlpha (1 / 60) -
      (tick zcC6 (1 / 60)).1.targetZoom| < kSnapEpsilon := by
    rw [hcur1, htgt1, easeAlpha_at_sixtieth]
    norm_num [kSnapEpsilon, abs_lt, le_abs]
  have hs2 : (tick (tick zcC6 (1 / 60)).1 (1 / 60)).1 =
      { (tick zcC6 (1 / 60)).1 with
        currentZoom := (tick zcC6 (1 / 60)).1.targetZoom
        mode := .Idle } := by
    rw [ht2, if_pos hc2]
  have hm2 : (tick (tick zcC6 (1 / 60)).1 (1 / 60)).1.mode = Mode.Idle := by
    rw [hs2]
  have hcur2 : (tick (tick zcC6 (1 / 60)).1 (1 / 60)).1.currentZoom = 1.25 := by
    rw [hs2]
    show (tick zcC6 (1 / 60)).1.targetZoom = 1.25
    exact htgt1
  refine ⟨hstart, hm1, hm2, ?_⟩
  rw [hcur1, hcur2]
  show |(1.2449 : ℝ) - zcC6.currentZoom| < |(1.25 : ℝ) - 1.2449|
  simp only [zcC6]
  norm_num [abs_lt, le_abs, abs_of_nonneg]

/-- Witness for the amended C6 at current 1, target 2, dt = 1/60: neither of
the first two frames snaps (1 → 1.15 → 1.2775) and the second delta 0.1275 is
at most the first delta 0.15. -/
theorem easeout_delta_nonincreasing_witness :
    |(tick (tick zcC6w (1 / 60)).1 (1 / 60)).1.currentZoom -
      (tick zcC6w (1 / 60)).1.currentZoom| ≤
      |(tick zcC6w (1 / 60)).1.currentZoom - zcC6w.currentZoom| := by
  have ht1 := tick_animating zcC6w (1 / 60) rfl
  have hc1 : ¬(|zcC6w.currentZoom +
      (zcC6w.targetZoom - zcC6w.currentZoom) * easeAlpha (1 / 60) -
      zcC6w.targetZoom| < kSnapEpsilon) := by
    rw [easeAlpha_at_sixtieth]
    simp only [zcC6w, kSnapEpsilon]
    norm_num [abs_lt, le_abs]
  have hs1 : (tick zcC6w (1 / 60)).1 =
      { zcC6w with currentZoom := zcC6w.currentZoom +
        (zcC6w.targetZoom - zcC6w.currentZoom) * easeAlpha (1 / 60) } := by
    rw [ht1, if_neg hc1]
  have hm1 : (tick zcC6w (1 / 60)).1.mode = Mode.Animating := by
    rw [hs1]
    exact rfl
  have hcur1 : (tick zcC6w (1 / 60)).1.currentZoom = 1.15 := by
    rw [hs1]
    show zcC6w.currentZoom + (zcC6w.targetZoom - zcC6w.currentZoom) * easeAlpha (1 / 60) =
      1.15
    rw [easeAlpha_at_sixtieth]
    simp only [zcC6w]
    norm_num
  have htgt1 : (tick zcC6w (1 / 60)).1.targetZoom = 2 := by
    rw [hs1]
    exact rfl
  have ht2 := tick_animating (tick zcC6w (1 / 60)).1 (1 / 60) hm1
  have hc2 : ¬(|(tick zcC6w (1 / 60)).1.currentZoom +
      ((tick zcC6w (1 / 60)).1.targetZoom - (tick zcC6w (1 / 60)).1.currentZoom) *
        easeAlpha (1 / 60) -
      (tick zcC6w (1 / 60)).1.targetZoom| < kSnapEpsilon) := by
    rw [hcur1, htgt1, easeAlpha_at_sixtieth]
    norm_num [kSnapEpsilon, abs_lt, le_abs]
  have hs2 : (tick (tick zcC6w (1 / 60)).1 (1 / 60)).1 =
      { (tick zcC6w (1 / 60)).1 with
        currentZoom := (tick zcC6w (1 / 60)).1.currentZoom +
          ((tick zcC6w (1 / 60)).1.targetZoom - (tick zcC6w (1 / 60)).1.currentZoom) *
            easeAlpha (1 / 60) } := by
    rw [ht2, if_neg hc2]
  have hm2 : (tick (tick zcC6w (1 / 60)).1 (1 / 60)).1.mode = Mode.Animating := by
    rw [hs2]
    exact hm1
  exact easeout_delta_nonincreasing zcC6w (1 / 60) rfl hm2

theorem applyScrollDelta_bounds (zc : ZoomController) (d : ℤ) :
    (applyScrollDelta zc d).minZoom = zc.minZoom ∧
    (applyScrollDelta zc d).maxZoom = zc.maxZoom := by
  simp only [applyScrollDelta]
  split_ifs <;> exact ⟨rfl, rfl⟩

theorem softAttenuate_id (zc : ZoomController) (nd : ℝ)
    (h1 : ¬(0 < nd ∧ Real.log zc.maxZoom -
      (Real.log zc.maxZoom - Real.log zc.minZoom) * kSoftMarginFraction <
      Real.log zc.currentZoom))
    (h2 : ¬(nd < 0 ∧ Real.log zc.currentZoom < Real.log zc.minZoom +
      (Real.log zc.maxZoom - Real.log zc.minZoom) * kSoftMarginFraction)) :
    softAttenuate zc nd = nd := by
  simp only [softAttenuate]
  rw [if_neg h1, if_neg h2]

theorem applyScrollDelta_clean (zc : ZoomController) (d : ℤ)
    (h : cleanScrollStep zc d) :
    (applyScrollDelta zc d).currentZoom =
      zc.currentZoom * kScrollZoomBase ^ ((d : ℝ) / kWheelDelta) := by
  obtain ⟨hup, hdown, hlo, hhi, hs1, hsm⟩ := h
  have h120 : (0 : ℝ) < kWheelDelta := by norm_num [kWheelDelta]
  by_cases hd : d = 0
  · subst hd
    rw [show (applyScrollDelta zc 0) = zc from by simp [applyScrollDelta]]
    rw [show (((0 : ℤ) : ℝ) / kWheelDelta) = (0 : ℝ) by norm_num]
    rw [Real.rpow_zero, mul_one]
  · have hatt : softAttenuate zc ((d : ℝ) / kWheelDelta) = (d : ℝ) / kWheelDelta := by
      apply softAttenuate_id
      · rintro ⟨hpos, hgt⟩
        have hd0 : 0 < d := by
          rcases div_pos_iff.mp hpos with ⟨ha, _⟩ | ⟨_, hb⟩
          · exact_mod_cast ha
          · exact absurd hb (not_lt.mpr h120.le)
        exact absurd hgt (not_lt.mpr (hup hd0))
      · rintro ⟨hneg, hlt⟩
        have hd0 : d < 0 := by
          rcases div_neg_iff.mp hneg with ⟨_, hb⟩ | ⟨ha, _⟩
          · exact absurd hb (not_lt.mpr h120.le)
          · exact_mod_cast ha
        exact absurd hlt (not_lt.mpr (hdown hd0))
    simp only [applyScrollDelta]
    rw [if_neg hd, hatt]
    show snapZoom zc.maxZoom (cppClamp
      (zc.currentZoom * kScrollZoomBase ^ ((d : ℝ) / kWheelDelta))
      zc.minZoom zc.maxZoom) = _
    rw [cppClamp_eq_self _ _ _ hlo hhi]
    simp only [snapZoom]
    rw [if_neg (not_lt.mpr hs1), if_neg (not_lt.mpr hsm)]

theorem scrollFold_clean (ds : List ℤ) (zc : ZoomController)
    (h : cleanScrollSeq zc ds) :
    (scrollFold zc ds).currentZoom =
      zc.currentZoom * kScrollZoomBase ^ (((ds.sum : ℤ) : ℝ) / kWheelDelta) := by
  have hB : (0 : ℝ) < kScrollZoomBase := by norm_num [kScrollZoomBase]
  induction ds generalizing zc with
  | nil =>
    show zc.currentZoom = zc.currentZoom * kScrollZoomBase ^ (((0 : ℤ) : ℝ) / kWheelDelta)
    rw [show (((0 : ℤ) : ℝ) / kWheelDelta) = (0 : ℝ) by norm_num, Real.rpow_zero, mul_one]
  | cons d ds ih =>
    obtain ⟨h1, h2⟩ := h
    have hstep := applyScrollDelta_clean zc d h1
    have hrec := ih (applyScrollDelta zc d) h2
    show (scrollFold (applyScrollDelta zc d) ds).currentZoom = _
    rw [hrec, hstep, mul_assoc, ← Real.rpow_add hB]
    congr 1
    rw [List.sum_cons]
    push_cast
    ring

/-- Claim C3: for every k and every starting state, if every step of the
combined scroll sequence is clean (no attenuation branch fires, no clamping,
no snapping — the "no bound interaction" condition, guaranteed when the whole
trajectory stays outside the 15% soft-bound margins of the log range), then
applying deltas summing to +k notches followed by deltas summing to −k
notches returns the current zoom to within 0.001 of the original value
(in the exact-real model it returns it exactly). -/
theorem scroll_log_symmetry (zc : ZoomController) (k : ℤ) (ds1 ds2 : List ℤ)
    (hplus : ds1.sum = 120 * k) (hminus : ds2.sum = -(120 * k))
    (hclean : cleanScrollSeq zc (ds1 ++ ds2)) :
    |(scrollFold zc (ds1 ++ ds2)).currentZoom - zc.currentZoom| ≤ 0.001 := by
  have h := scrollFold_clean (ds1 ++ ds2) zc hclean
  rw [List.sum_append, hplus, hminus,
    show (120 * k + -(120 * k) : ℤ) = 0 by ring] at h
  rw [h, show (((0 : ℤ) : ℝ) / kWheelDelta) = (0 : ℝ) by norm_num [kWheelDelta],
    Real.rpow_zero, mul_one, sub_self, abs_zero]
  norm_num

theorem log_pow_le_log_pow {a b : ℝ} {m n : ℕ} (ha : 0 < a) (hb : 0 < b)
    (h : a ^ m ≤ b ^ n) : (m : ℝ) * Real.log a ≤ (n : ℝ) * Real.log b := by
  rw [← Real.log_pow, ← Real.log_pow]
  exact (Real.log_le_log_iff (pow_pos ha m) (pow_pos hb n)).mpr h

theorem zcC3w_rpow_up :
    kScrollZoomBase ^ ((((120 : ℤ) : ℝ)) / kWheelDelta) = 1.1 := by
  rw [show ((((120 : ℤ) : ℝ)) / kWheelDelta) = (1 : ℝ) by norm_num [kWheelDelta],
    Real.rpow_one]
  norm_num [kScrollZoomBase]

theorem zcC3w_rpow_down :
    kScrollZoomBase ^ ((((-120 : ℤ) : ℝ)) / kWheelDelta) = (1.1 : ℝ)⁻¹ := by
  rw [show ((((-120 : ℤ) : ℝ)) / kWheelDelta) = (-1 : ℝ) by norm_num [kWheelDelta],
    Real.rpow_neg_one]
  norm_num [kScrollZoomBase]

theorem zcC3w_step1 : cleanScrollStep zcC3w 120 := by
  unfold cleanScrollStep
  simp only [zcC3w]
  rw [zcC3w_rpow_up]
  refine ⟨fun _ => ?_, fun hcon => absurd hcon (by norm_num), ?_, ?_, ?_, ?_⟩
  · have hkey := log_pow_le_log_pow (m := 20) (n := 17)
      (by norm_num : (0:ℝ) < 2) (by norm_num : (0:ℝ) < 10) (by norm_num)
    push_cast at hkey
    rw [Real.log_one]
    unfold kSoftMarginFraction
    nlinarith [hkey]
  · norm_num
  · norm_num
  · norm_num [kSnapEpsilon, le_abs]
  · norm_num [kSnapEpsilon, le_abs]

theorem zcC3w_cur2 : (applyScrollDelta zcC3w 120).currentZoom = 2.2 := by
  rw [applyScrollDelta_clean zcC3w 120 zcC3w_step1]
  simp only [zcC3w]
  rw [zcC3w_rpow_up]
  norm_num

theorem zcC3w_step2 : cleanScrollStep (applyScrollDelta zcC3w 120) (-120) := by
  unfold cleanScrollStep
  rw [zcC3w_cur2, (applyScrollDelta_bounds zcC3w 120).1,
    (applyScrollDelta_bounds zcC3w 120).2]
  simp only [zcC3w]
  rw [zcC3w_rpow_down]
  refine ⟨fun hcon => absurd hcon (by norm_num), fun _ => ?_, ?_, ?_, ?_, ?_⟩
  · have hkey := log_pow_le_log_pow (m := 3) (n := 20)
      (by norm_num : (0:ℝ) < 10) (by norm_num : (0:ℝ) < 2.2) (by norm_num)
    push_cast at hkey
    rw [Real.log_one]
    unfold kSoftMarginFraction
    nlinarith [hkey]
  · norm_num
  · norm_num
  · norm_num [kSnapEpsilon, le_abs]
  · norm_num [kSnapEpsilon, le_abs]

/-- Witness for C3: from zoom 2 with default bounds, one +120 notch (to 2.2)
followed by one −120 notch stays fully outside the soft-bound margins and
returns the zoom to exactly 2. -/
theorem scroll_log_symmetry_witness :
    |(scrollFold zcC3w [120, -120]).currentZoom - zcC3w.currentZoom| ≤ 0.001 := by
  have hclean : cleanScrollSeq zcC3w [120, -120] :=
    ⟨zcC3w_step1, zcC3w_step2, trivial⟩
  exact scroll_log_symmetry zcC3w 1 [120] [-120] (by norm_num) (by norm_num) hclean

theorem log_pow_lt_log_pow {a b : ℝ} {m n : ℕ} (ha : 0 < a) (h : a ^ m < b ^ n) :
    (m : ℝ) * Real.log a < (n : ℝ) * Real.log b := by
  rw [← Real.log_pow, ← Real.log_pow]
  exact Real.log_lt_log (pow_pos ha m) h

theorem log_lower_bound {x q : ℝ} {n k : ℕ} (hn : n ≠ 0) (hx : 0 < x)
    (hqn : (n : ℝ) * q ≤ (k : ℝ)) (h : (2.7182818286 : ℝ) ^ k ≤ x ^ n) :
    q ≤ Real.log x := by
  rw [Real.le_log_iff_exp_le hx]
  have hle : (Real.exp q) ^ n ≤ x ^ n := by
    rw [← Real.exp_nat_mul]
    calc Real.exp ((n : ℝ) * q) ≤ Real.exp (k : ℝ) := Real.exp_le_exp.mpr hqn
      _ = (Real.exp 1) ^ k := by
          rw [← Real.exp_nat_mul, mul_one]
      _ ≤ (2.7182818286 : ℝ) ^ k :=
          pow_le_pow_left₀ (Real.exp_pos 1).le Real.exp_one_lt_d9.le k
      _ ≤ x ^ n := h
  exact le_of_pow_le_pow_left₀ hn hx.le hle

/-- One upward notch with bounds [1, 10] from a zoom in [1, 7] multiplies the
current zoom by exactly 1.1 (no attenuation: log 7 ≤ 0.85·log 10 because
7^20 ≤ 10^17; no clamping; no snap). -/
theorem scroll_up_step (zc : ZoomController) (h1 : zc.minZoom = 1)
    (h2 : zc.maxZoom = 10) (h3 : 1 ≤ zc.currentZoom) (h4 : zc.currentZoom ≤ 7) :
    (applyScrollDelta zc 120).currentZoom = 1.1 * zc.currentZoom := by
  have hcur0 : (0 : ℝ) < zc.currentZoom := lt_of_lt_of_le one_pos h3
  have hclean : cleanScrollStep zc 120 := by
    unfold cleanScrollStep
    rw [h1, h2, zcC3w_rpow_up, Real.log_one]
    refine ⟨fun _ => ?_, fun hcon => absurd hcon (by norm_num), ?_, ?_, ?_, ?_⟩
    · have hc7 : Real.log zc.currentZoom ≤ Real.log 7 :=
        (Real.log_le_log_iff hcur0 (by norm_num)).mpr h4
      have h717 := log_pow_le_log_pow (m := 20) (n := 17)
        (show (0 : ℝ) < 7 by norm_num) (show (0 : ℝ) < 10 by norm_num) (by norm_num)
      push_cast at h717
      unfold kSoftMarginFraction
      nlinarith
    · nlinarith
    · nlinarith
    · unfold kSnapEpsilon
      rw [le_abs]
      left
      nlinarith
    · unfold kSnapEpsilon
      rw [le_abs]
      right
      nlinarith
  rw [applyScrollDelta_clean zc 120 hclean, zcC3w_rpow_up]
  ring

set_option maxHeartbeats 1600000 in
/-- One downward notch with bounds [1, 10] from inside the lower soft margin
(log current < 0.15·log 10): the attenuated step still lowers the zoom, but
the log of the zoom shrinks by a factor of at most 3/5 — it stays at least
2/5 of its previous value (and the result stays above 1.016, so neither snap
fires and no clamping occurs). -/
theorem scroll_down_step (zc : ZoomController) (h1 : zc.minZoom = 1)
    (h2 : zc.maxZoom = 10) (hcpos : 1 < zc.currentZoom)
    (hl : 0.04 ≤ Real.log zc.currentZoom)
    (hu : Real.log zc.currentZoom < Real.log 10 * 0.15) :
    (applyScrollDelta zc (-120)).currentZoom ≤ zc.currentZoom ∧
    2 / 5 * Real.log zc.currentZoom ≤
      Real.log (applyScrollDelta zc (-120)).currentZoom ∧
    1 < (applyScrollDelta zc (-120)).currentZoom := by
  have hlog10 : (0 : ℝ) < Real.log 10 := Real.log_pos (by norm_num)
  have hcur0 : (0 : ℝ) < zc.currentZoom := lt_trans one_pos hcpos
  have hL0 : (0 : ℝ) < Real.log zc.currentZoom := lt_of_lt_of_le (by norm_num) hl
  have hM0 : (0 : ℝ) < Real.log 10 * 0.15 := by nlinarith
  have ht0 : 0 ≤ (Real.log 10 * 0.15 - Real.log zc.currentZoom) /
      (Real.log 10 * 0.15) :=
    div_nonneg (by linarith) hM0.le
  have ht1 : (Real.log 10 * 0.15 - Real.log zc.currentZoom) /
      (Real.log 10 * 0.15) ≤ 1 := by
    rw [div_le_one hM0]
    linarith
  have hnd : ((((-120) : ℤ) : ℝ)) / kWheelDelta = -1 := by norm_num [kWheelDelta]
  have hatt : softAttenuate zc (((((-120) : ℤ) : ℝ)) / kWheelDelta) =
      -(1 - (Real.log 10 * 0.15 - Real.log zc.currentZoom) / (Real.log 10 * 0.15) *
        ((Real.log 10 * 0.15 - Real.log zc.currentZoom) / (Real.log 10 * 0.15))) := by
    rw [hnd]
    simp only [softAttenuate, h1, h2, Real.log_one, kSoftMarginFraction,
      sub_zero, zero_add]
    rw [if_neg (by norm_num), if_pos (by constructor <;> [norm_num; linarith]),
      cppClamp_eq_self _ _ _ ht0 ht1]
    ring
  set T := (Real.log 10 * 0.15 - Real.log zc.currentZoom) / (Real.log 10 * 0.15)
    with hTdef
  have hA0 : 0 ≤ 1 - T * T := by nlinarith
  have h1T : 1 - T = Real.log zc.currentZoom / (Real.log 10 * 0.15) := by
    rw [hTdef]
    field_simp
  have hbound : 1 - T * T ≤
      2 * (Real.log zc.currentZoom / (Real.log 10 * 0.15)) := by
    have hplus : (1 - T) * (1 + T) ≤ (1 - T) * 2 :=
      mul_le_mul_of_nonneg_left (by linarith) (by linarith)
    calc 1 - T * T = (1 - T) * (1 + T) := by ring
      _ ≤ (1 - T) * 2 := hplus
      _ = 2 * (Real.log zc.currentZoom / (Real.log 10 * 0.15)) := by
          rw [h1T]; ring
  have hA_le : (1 - T * T) * (Real.log 10 * 0.15) ≤ 2 * Real.log zc.currentZoom := by
    have hmul := mul_le_mul_of_nonneg_right hbound hM0.le
    rw [mul_assoc, div_mul_cancel₀ _ (ne_of_gt hM0)] at hmul
    exact hmul
  have hrate0 := log_pow_le_log_pow (m := 200) (n := 9)
    (show (0 : ℝ) < 1.1 by norm_num) (show (0 : ℝ) < 10 by norm_num)
    (by norm_num : (1.1 : ℝ) ^ (200 : ℕ) ≤ (10 : ℝ) ^ (9 : ℕ))
  push_cast at hrate0
  have hlog11 : (0 : ℝ) < Real.log 1.1 := Real.log_pos (by norm_num)
  have hstep1 : Real.log 1.1 ≤ 3 / 10 * (Real.log 10 * 0.15) := by nlinarith
  have hstep2 : (1 - T * T) * Real.log 1.1 ≤
      (1 - T * T) * (3 / 10 * (Real.log 10 * 0.15)) :=
    mul_le_mul_of_nonneg_left hstep1 hA0
  have hlow : 2 / 5 * Real.log zc.currentZoom ≤
      Real.log zc.currentZoom + -(1 - T * T) * Real.log 1.1 := by
    nlinarith
  have hB0 : (0 : ℝ) < kScrollZoomBase := by norm_num [kScrollZoomBase]
  have hpow_pos : 0 < kScrollZoomBase ^ (-(1 - T * T)) :=
    Real.rpow_pos_of_pos hB0 _
  have hnz_pos : 0 < zc.currentZoom * kScrollZoomBase ^ (-(1 - T * T)) :=
    mul_pos hcur0 hpow_pos
  have hlog_nz : Real.log (zc.currentZoom * kScrollZoomBase ^ (-(1 - T * T))) =
      Real.log zc.currentZoom + -(1 - T * T) * Real.log 1.1 := by
    rw [Real.log_mul (ne_of_gt hcur0) (ne_of_gt hpow_pos), Real.log_rpow hB0]
    rfl
  have hloglow : (0.016 : ℝ) ≤
      Real.log (zc.currentZoom * kScrollZoomBase ^ (-(1 - T * T))) := by
    rw [hlog_nz]
    linarith
  have hge : Real.exp 0.016 ≤ zc.currentZoom * kScrollZoomBase ^ (-(1 - T * T)) := by
    rw [← Real.exp_log hnz_pos]
    exact Real.exp_le_exp.mpr hloglow
  have hge2 : (1.016 : ℝ) ≤ zc.currentZoom * kScrollZoomBase ^ (-(1 - T * T)) := by
    have hexp := Real.add_one_le_exp (0.016 : ℝ)
    linarith
  have hup : zc.currentZoom * kScrollZoomBase ^ (-(1 - T * T)) ≤ zc.currentZoom := by
    have hle1 : kScrollZoomBase ^ (-(1 - T * T)) ≤ 1 :=
      Real.rpow_le_one_of_one_le_of_nonpos (by norm_num [kScrollZoomBase])
        (by linarith)
    calc zc.currentZoom * kScrollZoomBase ^ (-(1 - T * T)) ≤ zc.currentZoom * 1 :=
          mul_le_mul_of_nonneg_left hle1 hcur0.le
      _ = zc.currentZoom := mul_one _
  have hcur2 : zc.currentZoom < 2 := by
    have h10_3 : Real.log 10 * 0.15 ≤ Real.log 2 := by
      have hkey := log_pow_le_log_pow (m := 3) (n := 20)
        (show (0 : ℝ) < 10 by norm_num) (show (0 : ℝ) < 2 by norm_num) (by norm_num)
      push_cast at hkey
      nlinarith
    exact (Real.log_lt_log_iff hcur0 (by norm_num)).mp (lt_of_lt_of_le hu h10_3)
  have hsnap1 : ¬(|zc.currentZoom * kScrollZoomBase ^ (-(1 - T * T)) - 1| <
      kSnapEpsilon) := by
    rw [not_lt]
    unfold kSnapEpsilon
    rw [le_abs]
    left
    linarith
  have hsnap2 : ¬(|zc.currentZoom * kScrollZoomBase ^ (-(1 - T * T)) - 10| <
      kSnapEpsilon) := by
    rw [not_lt]
    unfold kSnapEpsilon
    rw [le_abs]
    right
    linarith
  have heval : (applyScrollDelta zc (-120)).currentZoom =
      zc.currentZoom * kScrollZoomBase ^ (-(1 - T * T)) := by
    simp only [applyScrollDelta]
    rw [if_neg (by norm_num : ¬((-120 : ℤ) = 0)), hatt]
    show snapZoom zc.maxZoom (cppClamp
      (zc.currentZoom * kScrollZoomBase ^ (-(1 - T * T))) zc.minZoom zc.maxZoom) = _
    rw [h1, h2, cppClamp_eq_self _ _ _ (by linarith) (by linarith)]
    simp only [snapZoom]
    rw [if_neg hsnap1, if_neg hsnap2]
  refine ⟨?_, ?_, ?_⟩
  · rw [heval]
    exact hup
  · rw [heval, hlog_nz]
    exact hlow
  · rw [heval]
    linarith

theorem log_1331_low : (0.27 : ℝ) ≤ Real.log 1.331 :=
  log_lower_bound (n := 100) (k := 27) (by norm_num) (by norm_num)
    (by norm_num) (by norm_num)

theorem log_1331_high : Real.log 1.331 < Real.log 10 * 0.15 := by
  have hkey := log_pow_lt_log_pow (m := 20) (n := 3)
    (show (0 : ℝ) < 1.331 by norm_num)
    (by norm_num : (1.331 : ℝ) ^ (20 : ℕ) < (10 : ℝ) ^ (3 : ℕ))
  push_cast at hkey
  linarith

theorem c2u1_min : c2u1.minZoom = 1 := (applyScrollDelta_bounds zcInit 120).1

theorem c2u1_max : c2u1.maxZoom = 10 := (applyScrollDelta_bounds zcInit 120).2

theorem c2u2_min : c2u2.minZoom = 1 := (applyScrollDelta_bounds c2u1 120).1.trans c2u1_min

theorem c2u2_max : c2u2.maxZoom = 10 := (applyScrollDelta_bounds c2u1 120).2.trans c2u1_max

theorem c2u3_min : c2u3.minZoom = 1 := (applyScrollDelta_bounds c2u2 120).1.trans c2u2_min

theorem c2u3_max : c2u3.maxZoom = 10 := (applyScrollDelta_bounds c2u2 120).2.trans c2u2_max

theorem c2d1_min : c2d1.minZoom = 1 := (applyScrollDelta_bounds c2u3 (-120)).1.trans c2u3_min

theorem c2d1_max : c2d1.maxZoom = 10 := (applyScrollDelta_bounds c2u3 (-120)).2.trans c2u3_max

theorem c2d2_min : c2d2.minZoom = 1 := (applyScrollDelta_bounds c2d1 (-120)).1.trans c2d1_min

theorem c2d2_max : c2d2.maxZoom = 10 := (applyScrollDelta_bounds c2d1 (-120)).2.trans c2d1_max

theorem c2u1_cur : c2u1.currentZoom = 1.1 := by
  unfold c2u1
  rw [scroll_up_step zcInit rfl rfl (by norm_num [zcInit]) (by norm_num [zcInit])]
  norm_num [zcInit]

theorem c2u2_cur : c2u2.currentZoom = 1.21 := by
  unfold c2u2
  rw [scroll_up_step c2u1 c2u1_min c2u1_max (by rw [c2u1_cur]; norm_num)
    (by rw [c2u1_cur]; norm_num), c2u1_cur]
  norm_num

theorem c2u3_cur : c2u3.currentZoom = 1.331 := by
  unfold c2u3
  rw [scroll_up_step c2u2 c2u2_min c2u2_max (by rw [c2u2_cur]; norm_num)
    (by rw [c2u2_cur]; norm_num), c2u2_cur]
  norm_num

theorem c2d1_facts : c2d1.currentZoom ≤ 1.331 ∧
    (0.108 : ℝ) ≤ Real.log c2d1.currentZoom ∧ 1 < c2d1.currentZoom := by
  have hl : (0.04 : ℝ) ≤ Real.log c2u3.currentZoom := by
    rw [c2u3_cur]
    linarith [log_1331_low]
  have hu : Real.log c2u3.currentZoom < Real.log 10 * 0.15 := by
    rw [c2u3_cur]
    exact log_1331_high
  have hpos : 1 < c2u3.currentZoom := by rw [c2u3_cur]; norm_num
  have h := scroll_down_step c2u3 c2u3_min c2u3_max hpos hl hu
  refine ⟨?_, ?_, h.2.2⟩
  · have ha := h.1
    rw [c2u3_cur] at ha
    exact ha
  · have hb := h.2.1
    rw [c2u3_cur] at hb
    show (0.108 : ℝ) ≤ Real.log (applyScrollDelta c2u3 (-120)).currentZoom
    linarith [log_1331_low]

theorem c2d2_facts : c2d2.currentZoom ≤ 1.331 ∧
    (0.0432 : ℝ) ≤ Real.log c2d2.currentZoom ∧ 1 < c2d2.currentZoom := by
  obtain ⟨ha, hb, hc⟩ := c2d1_facts
  have hpos0 : (0 : ℝ) < c2d1.currentZoom := lt_trans one_pos hc
  have hu : Real.log c2d1.currentZoom < Real.log 10 * 0.15 :=
    lt_of_le_of_lt ((Real.log_le_log_iff hpos0 (by norm_num)).mpr ha) log_1331_high
  have h := scroll_down_step c2d1 c2d1_min c2d1_max hc (by linarith) hu
  refine ⟨le_trans h.1 ha, ?_, h.2.2⟩
  show (0.0432 : ℝ) ≤ Real.log (applyScrollDelta c2d1 (-120)).currentZoom
  linarith [h.2.1]

theorem c2d3_facts : c2d3.currentZoom ≤ 1.331 ∧
    (0.0172 : ℝ) ≤ Real.log c2d3.currentZoom ∧ 1 < c2d3.currentZoom := by
  obtain ⟨ha, hb, hc⟩ := c2d2_facts
  have hpos0 : (0 : ℝ) < c2d2.currentZoom := lt_trans one_pos hc
  have hu : Real.log c2d2.currentZoom < Real.log 10 * 0.15 :=
    lt_of_le_of_lt ((Real.log_le_log_iff hpos0 (by norm_num)).mpr ha) log_1331_high
  have h := scroll_down_step c2d2 c2d2_min c2d2_max hc (by linarith) hu
  refine ⟨le_trans h.1 ha, ?_, h.2.2⟩
  show (0.0172 : ℝ) ≤ Real.log (applyScrollDelta c2d2 (-120)).currentZoom
  linarith [h.2.1]

theorem scroll_scenario_chain :
    (scrollFold zcInit [120, 120, 120]).currentZoom = 1.331 ∧
    1.005 < (scrollFold zcInit [120, 120, 120, -120, -120, -120]).currentZoom ∧
    (scrollFold zcInit [120, 120, 120, -120, -120, -120]).currentZoom ≤ 1.331 := by
  have hfold3 : scrollFold zcInit [120, 120, 120] = c2u3 := rfl
  have hfold6 : scrollFold zcInit [120, 120, 120, -120, -120, -120] = c2d3 := rfl
  obtain ⟨ha, hb, hc⟩ := c2d3_facts
  rw [hfold3, hfold6]
  refine ⟨c2u3_cur, ?_, ha⟩
  have hpos : (0 : ℝ) < c2d3.currentZoom := lt_trans one_pos hc
  have h1 : Real.exp 0.0172 ≤ c2d3.currentZoom := by
    rw [← Real.exp_log hpos]
    exact Real.exp_le_exp.mpr hb
  have h2 := Real.add_one_le_exp (0.0172 : ℝ)
  linarith

/-- Claim C2 counterexample: from the default state (zoom 1, bounds [1, 10]),
three +120 scroll notches followed by three −120 scroll notches do NOT return
the current zoom to 1.0 — the downward notches are attenuated by the lower
soft bound (the whole trajectory lies inside the 15% margin, since
log 1.331 < 0.15·log 10), and the final zoom stays above 1.005, out of reach
of the snap. -/
theorem scroll_updown_counterexample :
    (scrollFold zcInit [120, 120, 120, -120, -120, -120]).currentZoom ≠ 1 := by
  have h := scroll_scenario_chain
  intro hcon
  rw [hcon] at h
  norm_num at h

/-- Claim C2 amended: three +120 notches from the default state make the
current zoom peak at exactly 1.1³ = 1.331; the three following −120 notches
are attenuated by the lower soft bound and leave the current zoom strictly
above 1.005 (hence not snapped and not equal to 1.0) and no higher than the
1.331 peak. -/
theorem scroll_updown_amended :
    (1.331 : ℝ) = 1.1 ^ (3 : ℕ) ∧
    (scrollFold zcInit [120, 120, 120]).currentZoom = 1.331 ∧
    1.005 < (scrollFold zcInit [120, 120, 120, -120, -120, -120]).currentZoom ∧
    (scrollFold zcInit [120, 120, 120, -120, -120, -120]).currentZoom ≤ 1.331 :=
  ⟨by norm_num, scroll_scenario_chain⟩

/-- Claim C7: when `loadFromFile` is given a path whose file is missing or
whose contents do not parse as the settings document, it returns false, the
in-memory snapshot is unchanged and the version counter does not advance. -/
theorem loadFromFile_failure (mgr : SettingsManager) (file : Option (Option Json))
    (h : file = none ∨ file = some none) :
    (loadFromFile mgr file).1 = false ∧
    (loadFromFile mgr file).2.snapshot = mgr.snapshot ∧
    (loadFromFile mgr file).2.version = mgr.version := by
  rcases h with h | h <;> subst h <;> exact ⟨rfl, rfl, rfl⟩

/-- Witness for C7: a manager holding the default snapshot at version 0, fed
a missing file. -/
theorem loadFromFile_failure_witness :
    (loadFromFile ⟨defaultSettings, 0⟩ none).1 = false ∧
    (loadFromFile ⟨defaultSettings, 0⟩ none).2.snapshot =
      SettingsManager.snapshot ⟨defaultSettings, 0⟩ ∧
    (loadFromFile ⟨defaultSettings, 0⟩ none).2.version = 0 :=
  loadFromFile_failure ⟨defaultSettings, 0⟩ none (Or.inl rfl)

end SmoothZoom

